import Mathlib

set_option maxRecDepth 8000

/-!
Verification of the pmsg log-file decoder (`src/parse_pmsg.py`, function
`parse_pmsg_file`) against its natural-language specification.

The byte source is modelled as `List Nat` (each element a byte, 0..255).
Python strings are modelled as lists of Unicode code points (`List Nat`),
except for the small fixed `level` strings, modelled as Lean `String`.
Records are the dictionaries appended to `parsed_entries`; the messages
printed to `stderr` are modelled as a side list of `Diag` values
(severity plus the byte offset used in the printed message), in emission
order.

The Python `while` loop is modelled with an explicit fuel argument that
decreases by one per iteration, so the function is structurally recursive
and executable.  `parse_pmsg_file data v` supplies `data.length` fuel,
which is always sufficient because every iteration either stops or
consumes at least 4 bytes of input (fuel is exhausted only on an empty
remainder, where the loop would stop anyway).
-/

namespace Pmsg

/-- Severity of a line printed to stderr by the parser: `Error: ...`,
`Warning: ...`, or a `Verbose: ...` note (the latter only when the
`verbose` flag is set). -/
inductive Severity where
  | error : Severity
  | warning : Severity
  | verbose : Severity
deriving DecidableEq, Repr

/-- One stderr line: its severity and the byte offset quoted in it. -/
structure Diag where
  sev : Severity
  offset : Nat
deriving DecidableEq, Repr

/-- One parsed log entry, the dictionary appended to `parsed_entries`:
`timestamp` is modelled as microseconds since the epoch (the instant
denoted by `datetime.datetime.fromtimestamp(sec) +
datetime.timedelta(microseconds=nsec / 1000)`), `level` is the Python
string stored under `"level"`, and `tag` / `message` are the code points
of the Python strings stored under `"tag"` / `"message"`. -/
structure LogRecord where
  timestamp : Nat
  pid : Int
  tid : Int
  level : String
  tag : List Nat
  message : List Nat
deriving DecidableEq, Repr

/-- Code points of a Lean string literal; used to write concrete Python
string values such as `"ErrorTag"` as `List Nat`. -/
def strCps (s : String) : List Nat :=
  s.data.map Char.toNat

/-- `MIN_HEADER_SIZE = 20` from the source. -/
def MIN_HEADER_SIZE : Nat := 20

/-- The `LOG_LEVELS` dict of the source: `{2:"V",3:"D",4:"I",5:"W",6:"E",7:"F"}`. -/
def LOG_LEVELS (p : Nat) : Option String :=
  if p = 2 then some "V"
  else if p = 3 then some "D"
  else if p = 4 then some "I"
  else if p = 5 then some "W"
  else if p = 6 then some "E"
  else if p = 7 then some "F"
  else none

/-- `LOG_LEVELS.get(prio, str(prio))` from line 190 of the source:
the mapped character, or the decimal rendering of the priority byte. -/
def logLevel (p : Nat) : String :=
  (LOG_LEVELS p).getD (Nat.repr p)

/-- Little-endian `<I` (uint32) decoding of 4 bytes, as in
`struct.unpack('<iiII', ...)`.  Only ever applied to slices whose length
was already checked to be at least 4 (a shorter argument corresponds to a
`struct.error`, which the length checks in the loop make unreachable). -/
def leU32 : List Nat → Nat
  | b0 :: b1 :: b2 :: b3 :: _ => b0 + 256 * b1 + 65536 * b2 + 16777216 * b3
  | _ => 0

/-- Little-endian `<i` (int32, two's complement) decoding of 4 bytes. -/
def leI32 (l : List Nat) : Int :=
  let u := leU32 l
  if u < 2147483648 then (u : Int) else (u : Int) - 4294967296

/-- Python's Banker's rounding of the float `nsec / 1000` to whole
microseconds, as performed by `datetime.timedelta(microseconds=nsec/1000)`.

For `nsec < 2 ^ 32` the true division `nsec / 1000` is below `2 ^ 23`, so
the IEEE-754 double nearest to it differs from the exact rational by less
than `2 ^ -30`, while a non-tie rational `nsec / 1000` is at least
`1 / 1000` away from the nearest half-integer; exact ties
(`nsec % 1000 = 500`) give a half-integer that a double represents
exactly.  Hence `timedelta`'s round-half-to-even of the double equals
round-half-to-even of the exact rational, which is this function. -/
def pyTdMicros (nsec : Nat) : Nat :=
  let q := nsec / 1000
  let r := nsec % 1000
  if r < 500 then q
  else if 500 < r then q + 1
  else if q % 2 = 0 then q else q + 1

/-- The timestamp of line 170 / line 217 of the source,
`datetime.datetime.fromtimestamp(sec) + datetime.timedelta(microseconds=nsec / 1000)`,
expressed as microseconds since the epoch. -/
def timestampMicros (sec nsec : Nat) : Nat :=
  sec * 1000000 + pyTdMicros nsec

/-- `payload.index(b'\x00', start)` from line 196 of the source: index of
the first zero byte at position `≥ start`, or `none` (the `ValueError`
branch) when there is none. -/
def indexZeroFrom (l : List Nat) (start : Nat) : Option Nat :=
  match (l.drop start).findIdx? (fun b => b == 0) with
  | some j => some (start + j)
  | none => none

/-- The trailing-zero stripping loop of lines 212-214 of the source:
drop every trailing zero byte of the message bytes. -/
def stripTrailingZeros (l : List Nat) : List Nat :=
  (l.reverse.dropWhile (fun b => b == 0)).reverse

/-- Python's `bytes.decode('utf-8', errors='replace')` on a byte list,
returning the code points of the resulting string.  Invalid input is
handled exactly as CPython does: each maximal subpart of an ill-formed
sequence (a stray or out-of-place byte, or a truncated sequence cut at
its first impossible byte) is replaced by one U+FFFD (65533).  The first
continuation byte is range-restricted per lead byte (E0: A0..BF, ED:
80..9F, F0: 90..BF, F4: 80..8F), which excludes overlong forms,
surrogates and code points above U+10FFFF. -/
def utf8DecodeReplace : List Nat → List Nat
  | [] => []
  | b0 :: rest =>
    if b0 < 128 then b0 :: utf8DecodeReplace rest
    else if b0 < 194 then 65533 :: utf8DecodeReplace rest
    else if b0 < 224 then
      match rest with
      | [] => [65533]
      | b1 :: r1 =>
        if 128 ≤ b1 ∧ b1 < 192 then
          ((b0 - 192) * 64 + (b1 - 128)) :: utf8DecodeReplace r1
        else 65533 :: utf8DecodeReplace (b1 :: r1)
    else if b0 < 240 then
      match rest with
      | [] => [65533]
      | b1 :: r1 =>
        if (if b0 = 224 then 160 else 128) ≤ b1 ∧ b1 < (if b0 = 237 then 160 else 192) then
          match r1 with
          | [] => [65533]
          | b2 :: r2 =>
            if 128 ≤ b2 ∧ b2 < 192 then
              ((b0 - 224) * 4096 + (b1 - 128) * 64 + (b2 - 128)) :: utf8DecodeReplace r2
            else 65533 :: utf8DecodeReplace (b2 :: r2)
        else 65533 :: utf8DecodeReplace (b1 :: r1)
    else if b0 < 245 then
      match rest with
      | [] => [65533]
      | b1 :: r1 =>
        if (if b0 = 240 then 144 else 128) ≤ b1 ∧ b1 < (if b0 = 244 then 144 else 192) then
          match r1 with
          | [] => [65533]
          | b2 :: r2 =>
            if 128 ≤ b2 ∧ b2 < 192 then
              match r2 with
              | [] => [65533]
              | b3 :: r3 =>
                if 128 ≤ b3 ∧ b3 < 192 then
                  ((b0 - 240) * 262144 + (b1 - 128) * 4096 + (b2 - 128) * 64 + (b3 - 128)) ::
                    utf8DecodeReplace r3
                else 65533 :: utf8DecodeReplace (b3 :: r3)
            else 65533 :: utf8DecodeReplace (b2 :: r2)
        else 65533 :: utf8DecodeReplace (b1 :: r1)
    else 65533 :: utf8DecodeReplace rest

/-- UTF-8 encoding of one Unicode scalar value, as `str.encode('utf-8')`
produces for one character. -/
def utf8EncodeCp (c : Nat) : List Nat :=
  if c < 128 then [c]
  else if c < 2048 then [192 + c / 64, 128 + c % 64]
  else if c < 65536 then [224 + c / 4096, 128 + (c / 64) % 64, 128 + c % 64]
  else [240 + c / 262144, 128 + (c / 4096) % 64, 128 + (c / 64) % 64, 128 + c % 64]

/-- UTF-8 encoding of a sequence of Unicode scalar values. -/
def utf8Encode : List Nat → List Nat
  | [] => []
  | c :: cs => utf8EncodeCp c ++ utf8Encode cs

/-- Lines 187-226 of the source: split a non-empty payload into priority,
tag and message, and build the record appended to `parsed_entries`.
`poff` is `current_offset + MIN_HEADER_SIZE`, the offset quoted in the
tag warning.  The `except IndexError` / `except Exception` arms of the
source are not modelled as outcomes because no operation in the body can
raise on a non-empty payload: `payload[0]` exists, slicing is total and
`decode('utf-8', errors='replace')` never raises. -/
def parsePayload (payload : List Nat) (poff : Nat) (pid tid : Int) (ts : Nat) :
    LogRecord × List Diag :=
  let prio := payload.getD 0 0
  let log_level := logLevel prio
  match indexZeroFrom payload 1 with
  | none =>
    -- ValueError branch: no null terminator for the tag.
    let message_bytes := payload.drop 1
    let msg := utf8DecodeReplace (stripTrailingZeros message_bytes)
    (⟨ts, pid, tid, log_level, strCps "ErrorTag", msg⟩, [⟨Severity.warning, poff⟩])
  | some i =>
    let tag := utf8DecodeReplace ((payload.drop 1).take (i - 1))
    let message_bytes := payload.drop (i + 1)
    let msg := utf8DecodeReplace (stripTrailingZeros message_bytes)
    (⟨ts, pid, tid, log_level, tag, msg⟩, [])

/-- The `while True` loop of `parse_pmsg_file` (lines 77-233), one fuel
unit per iteration.  The list argument is the unread remainder of the
stream and `off` is `f.tell()` at the top of the iteration.  Returns the
records produced from this point on and the stderr lines emitted from
this point on.  Fuel 0 on a non-empty remainder has no counterpart in
the source; it is only reached when a caller supplies fewer than
`s.length` fuel units. -/
def parseLoop : Nat → Bool → List Nat → Nat → List LogRecord × List Diag
  | _, _, [], _ => ([], [])
  | 0, _, _, _ => ([], [])
  | f + 1, verbose, b0 :: b1 :: b2 :: b3 :: rest, off =>
    -- struct.unpack('<HH', ...): entry_len, header_size_or_version
    -- (the latter, b2 + 256 * b3, is read but never used).
    let entry_len := b0 + 256 * b1
    if entry_len = 0 then
      -- padding entry: continue
      let p := parseLoop f verbose rest (off + 4)
      (p.1, (if verbose then [⟨Severity.verbose, off⟩] else []) ++ p.2)
    else if entry_len < MIN_HEADER_SIZE then
      -- malformed entry: return parsed_entries
      ([], [⟨Severity.error, off⟩])
    else if rest.length < 16 then
      -- incomplete entry header: break
      ([], [⟨Severity.error, off + 4⟩])
    else
      -- struct.unpack('<iiII', ...)
      let pid := leI32 (rest.take 4)
      let tid := leI32 ((rest.drop 4).take 4)
      let sec := leU32 ((rest.drop 8).take 4)
      let nsec := leU32 ((rest.drop 12).take 4)
      let after := rest.drop 16
      let payload_len : Int := (entry_len : Int) - (MIN_HEADER_SIZE : Int)
      let vdiag : List Diag := if verbose then [⟨Severity.verbose, off⟩] else []
      if payload_len < 0 then
        -- defensive branch of lines 137-162 (unreachable: entry_len ≥ 20 here)
        if verbose then
          let p := parseLoop f verbose after (off + MIN_HEADER_SIZE)
          (p.1, vdiag ++ [⟨Severity.warning, off⟩] ++ p.2)
        else
          ([], vdiag ++ [⟨Severity.error, off⟩])
      else if payload_len = 0 then
        -- header-only entry
        let r : LogRecord := ⟨timestampMicros sec nsec, pid, tid, "N/A", strCps "N/A", []⟩
        let p := parseLoop f verbose after (off + MIN_HEADER_SIZE)
        (r :: p.1, vdiag ++ (if verbose then [⟨Severity.verbose, off⟩] else []) ++ p.2)
      else
        let pl := payload_len.toNat
        let payload := after.take pl
        if payload.length < pl then
          -- incomplete payload: break
          ([], vdiag ++ [⟨Severity.error, off + MIN_HEADER_SIZE⟩])
        else
          let rd := parsePayload payload (off + MIN_HEADER_SIZE) pid tid (timestampMicros sec nsec)
          let p := parseLoop f verbose (after.drop pl) (off + MIN_HEADER_SIZE + pl)
          (rd.1 :: p.1, vdiag ++ rd.2 ++ p.2)
  | _ + 1, _, _ :: _, off =>
    -- 1 to 3 bytes left: incomplete entry header prefix, break
    ([], [⟨Severity.error, off⟩])

/-- `parse_pmsg_file` of the source, on an in-memory byte stream: the
list of parsed entries together with the stderr lines.  `data.length`
fuel always suffices (each iteration consumes at least 4 bytes). -/
def parse_pmsg_file (data : List Nat) (verbose : Bool) : List LogRecord × List Diag :=
  parseLoop data.length verbose data 0

/-- Little-endian encoding of a `u16` value (for building test frames). -/
def encodeU16 (n : Nat) : List Nat :=
  [n % 256, n / 256 % 256]

/-- Little-endian encoding of a `u32` value. -/
def encodeU32 (n : Nat) : List Nat :=
  [n % 256, n / 256 % 256, n / 65536 % 256, n / 16777216 % 256]

/-- Little-endian two's-complement encoding of an `i32` value. -/
def encodeI32 (z : Int) : List Nat :=
  encodeU32 (z % 4294967296).toNat

/-- The 20-byte fixed header of the wire format (all little-endian):
`u16 entry_len`, `u16 header_size_or_version`, `i32 pid`, `i32 tid`,
`u32 sec`, `u32 nsec`. -/
def encodeHeader (entry_len hsv : Nat) (pid tid : Int) (sec nsec : Nat) : List Nat :=
  encodeU16 entry_len ++ encodeU16 hsv ++ encodeI32 pid ++ encodeI32 tid ++
    encodeU32 sec ++ encodeU32 nsec

/-- A well-formed single frame: header with `entry_len = 20 + L`,
payload = priority byte, UTF-8 tag, NUL, UTF-8 message, NUL.  `tag` and
`msg` are given as Unicode scalar values. -/
def encodeFrame (hsv : Nat) (pid tid : Int) (sec nsec : Nat) (prio : Nat)
    (tag msg : List Nat) : List Nat :=
  let payload := prio :: (utf8Encode tag ++ 0 :: (utf8Encode msg ++ [0]))
  encodeHeader (20 + payload.length) hsv pid tid sec nsec ++ payload

/-! ### Round-trip lemmas for the little-endian field encodings -/

theorem leU32_encodeU32 (u : Nat) (h : u < 4294967296) : leU32 (encodeU32 u) = u := by
  simp only [encodeU32, leU32]
  omega

theorem leI32_encodeI32 (z : Int) (h1 : -2147483648 ≤ z) (h2 : z < 2147483648) :
    leI32 (encodeI32 z) = z := by
  have hlt : (z % 4294967296).toNat < 4294967296 := by
    have : z % 4294967296 < 4294967296 := Int.emod_lt_of_pos z (by norm_num)
    have : (0 : Int) ≤ z % 4294967296 := Int.emod_nonneg z (by norm_num)
    omega
  unfold leI32 encodeI32
  rw [leU32_encodeU32 _ hlt]
  have : (0 : Int) ≤ z % 4294967296 := Int.emod_nonneg z (by norm_num)
  show (if (z % 4294967296).toNat < 2147483648 then ((z % 4294967296).toNat : Int)
    else ((z % 4294967296).toNat : Int) - 4294967296) = z
  split
  · omega
  · omega

/-! ### The UTF-8 round trip: Python lossy decoding is a left inverse of
UTF-8 encoding on Unicode scalar values -/

theorem decode_encodeCp (c : Nat) (h1 : c < 1114112) (h2 : c < 55296 ∨ 57344 ≤ c)
    (rest : List Nat) :
    utf8DecodeReplace (utf8EncodeCp c ++ rest) = c :: utf8DecodeReplace rest := by
  by_cases hA : c < 128
  · rw [utf8EncodeCp, if_pos hA]
    show utf8DecodeReplace (c :: rest) = _
    rw [utf8DecodeReplace.eq_def]
    dsimp only
    rw [if_pos hA]
  · by_cases hB : c < 2048
    · rw [utf8EncodeCp, if_neg hA, if_pos hB]
      show utf8DecodeReplace ((192 + c / 64) :: (128 + c % 64) :: rest) = _
      rw [utf8DecodeReplace.eq_def]
      dsimp only
      rw [if_neg (by omega), if_neg (by omega), if_pos (by omega),
        if_pos (by omega : 128 ≤ 128 + c % 64 ∧ 128 + c % 64 < 192)]
      congr 1
      omega
    · by_cases hC : c < 65536
      · rw [utf8EncodeCp, if_neg hA, if_neg hB, if_pos hC]
        show utf8DecodeReplace
          ((224 + c / 4096) :: (128 + c / 64 % 64) :: (128 + c % 64) :: rest) = _
        rw [utf8DecodeReplace.eq_def]
        dsimp only
        rw [if_neg (by omega), if_neg (by omega), if_neg (by omega), if_pos (by omega)]
        have hcond : (if (224 + c / 4096) = 224 then 160 else 128) ≤ 128 + c / 64 % 64 ∧
            128 + c / 64 % 64 < (if (224 + c / 4096) = 237 then 160 else 192) := by
          refine ⟨?_, ?_⟩ <;> · split <;> omega
        rw [if_pos hcond, if_pos (by omega : 128 ≤ 128 + c % 64 ∧ 128 + c % 64 < 192)]
        congr 1
        omega
      · rw [utf8EncodeCp, if_neg hA, if_neg hB, if_neg hC]
        show utf8DecodeReplace ((240 + c / 262144) :: (128 + c / 4096 % 64) ::
          (128 + c / 64 % 64) :: (128 + c % 64) :: rest) = _
        rw [utf8DecodeReplace.eq_def]
        dsimp only
        rw [if_neg (by omega), if_neg (by omega), if_neg (by omega), if_neg (by omega),
          if_pos (by omega)]
        have hcond : (if (240 + c / 262144) = 240 then 144 else 128) ≤ 128 + c / 4096 % 64 ∧
            128 + c / 4096 % 64 < (if (240 + c / 262144) = 244 then 144 else 192) := by
          refine ⟨?_, ?_⟩ <;> · split <;> omega
        rw [if_pos hcond, if_pos (by omega : 128 ≤ 128 + c / 64 % 64 ∧ 128 + c / 64 % 64 < 192),
          if_pos (by omega : 128 ≤ 128 + c % 64 ∧ 128 + c % 64 < 192)]
        congr 1
        omega

theorem utf8_decode_encode (cps : List Nat)
    (h : ∀ c ∈ cps, c < 1114112 ∧ (c < 55296 ∨ 57344 ≤ c)) :
    utf8DecodeReplace (utf8Encode cps) = cps := by
  induction cps with
  | nil => rfl
  | cons c cs ih =>
    have hc := h c (List.mem_cons_self c cs)
    rw [utf8Encode, decode_encodeCp c hc.1 hc.2]
    rw [ih (fun x hx => h x (List.mem_cons_of_mem c hx))]

theorem utf8EncodeCp_pos (c : Nat) (hc : c ≠ 0) : ∀ b ∈ utf8EncodeCp c, b ≠ 0 := by
  intro b hb
  unfold utf8EncodeCp at hb
  split at hb
  · simp only [List.mem_singleton] at hb
    omega
  · split at hb
    · simp only [List.mem_cons, List.not_mem_nil, or_false] at hb
      rcases hb with h | h <;> omega
    · split at hb
      · simp only [List.mem_cons, List.not_mem_nil, or_false] at hb
        rcases hb with h | h | h <;> omega
      · simp only [List.mem_cons, List.not_mem_nil, or_false] at hb
        rcases hb with h | h | h | h <;> omega

theorem utf8Encode_pos (cps : List Nat) (h : ∀ c ∈ cps, c ≠ 0) :
    ∀ b ∈ utf8Encode cps, b ≠ 0 := by
  induction cps with
  | nil => intro b hb; simp [utf8Encode] at hb
  | cons c cs ih =>
    intro b hb
    rw [utf8Encode] at hb
    rcases List.mem_append.mp hb with h1 | h2
    · exact utf8EncodeCp_pos c (h c (List.mem_cons_self c cs)) b h1
    · exact ih (fun x hx => h x (List.mem_cons_of_mem c hx)) b h2

/-! ### Null-byte search and trailing-zero stripping -/

theorem findIdx_zero_of_all_pos (l : List Nat) (i : Nat) (h : ∀ b ∈ l, b ≠ 0) :
    l.findIdx? (fun b => b == 0) i = none := by
  induction l generalizing i with
  | nil => rfl
  | cons a t ih =>
    rw [List.findIdx?_cons]
    rw [if_neg (by simpa using h a (List.mem_cons_self a t))]
    exact ih (i + 1) (fun b hb => h b (List.mem_cons_of_mem a hb))

theorem findIdx_zero_append (l1 l2 : List Nat) (i : Nat) (h : ∀ b ∈ l1, b ≠ 0) :
    (l1 ++ 0 :: l2).findIdx? (fun b => b == 0) i = some (i + l1.length) := by
  induction l1 generalizing i with
  | nil =>
    rw [List.nil_append, List.findIdx?_cons]
    simp
  | cons a t ih =>
    rw [List.cons_append, List.findIdx?_cons]
    rw [if_neg (by simpa using h a (List.mem_cons_self a t))]
    rw [ih (i + 1) (fun b hb => h b (List.mem_cons_of_mem a hb))]
    simp only [List.length_cons]
    congr 1
    omega

theorem indexZeroFrom_of_all_pos (payload : List Nat) (h : ∀ b ∈ payload.drop 1, b ≠ 0) :
    indexZeroFrom payload 1 = none := by
  rw [indexZeroFrom, findIdx_zero_of_all_pos (payload.drop 1) 0 h]

theorem stripTrailingZeros_of_all_pos (l : List Nat) (h : ∀ b ∈ l, b ≠ 0) :
    stripTrailingZeros l = l := by
  rw [stripTrailingZeros]
  rcases hrev : l.reverse with _ | ⟨m, t⟩
  · simpa using congrArg List.reverse hrev
  · have hm : m ∈ l := by
      rw [← List.mem_reverse, hrev]
      exact List.mem_cons_self m t
    rw [List.dropWhile_cons, if_neg (by simpa using h m hm), ← hrev, List.reverse_reverse]

theorem stripTrailingZeros_append_zero (l : List Nat) (h : ∀ b ∈ l, b ≠ 0) :
    stripTrailingZeros (l ++ [0]) = l := by
  rw [stripTrailingZeros, List.reverse_append]
  show (((0 : Nat) :: l.reverse).dropWhile fun b => b == 0).reverse = l
  rw [List.dropWhile_cons, if_pos (by simp)]
  rcases hrev : l.reverse with _ | ⟨m, t⟩
  · simpa using congrArg List.reverse hrev
  · have hm : m ∈ l := by
      rw [← List.mem_reverse, hrev]
      exact List.mem_cons_self m t
    rw [List.dropWhile_cons, if_neg (by simpa using h m hm), ← hrev, List.reverse_reverse]

/-! ### One full loop iteration on a well-framed entry -/

theorem drop16_cons {α : Type} (a0 a1 a2 a3 a4 a5 a6 a7 a8 a9 a10 a11 a12 a13 a14 a15 : α)
    (l : List α) :
    List.drop 16 (a0 :: a1 :: a2 :: a3 :: a4 :: a5 :: a6 :: a7 :: a8 :: a9 :: a10 :: a11 ::
      a12 :: a13 :: a14 :: a15 :: l) = l := rfl

theorem parseLoop_frame_bytes (f : Nat) (v : Bool)
    (h0 h1 h2 h3 h4 h5 h6 h7 h8 h9 h10 h11 h12 h13 h14 h15 h16 h17 h18 h19 : Nat)
    (payload s' : List Nat) (off : Nat)
    (hel : 20 ≤ h0 + 256 * h1)
    (hplen : payload.length = h0 + 256 * h1 - 20)
    (hpos : 0 < payload.length) :
    parseLoop (f + 1) v
      (h0 :: h1 :: h2 :: h3 :: h4 :: h5 :: h6 :: h7 :: h8 :: h9 :: h10 :: h11 ::
        h12 :: h13 :: h14 :: h15 :: h16 :: h17 :: h18 :: h19 :: (payload ++ s')) off =
      (((parsePayload payload (off + 20) (leI32 [h4, h5, h6, h7]) (leI32 [h8, h9, h10, h11])
          (timestampMicros (leU32 [h12, h13, h14, h15]) (leU32 [h16, h17, h18, h19]))).1 ::
         (parseLoop f v s' (off + (h0 + 256 * h1))).1),
       (if v then [⟨Severity.verbose, off⟩] else []) ++
         (parsePayload payload (off + 20) (leI32 [h4, h5, h6, h7]) (leI32 [h8, h9, h10, h11])
           (timestampMicros (leU32 [h12, h13, h14, h15]) (leU32 [h16, h17, h18, h19]))).2 ++
         (parseLoop f v s' (off + (h0 + 256 * h1))).2) := by
  rw [parseLoop.eq_def]
  dsimp only [MIN_HEADER_SIZE]
  rw [if_neg (by omega), if_neg (by omega)]
  rw [if_neg (show ¬ (h4 :: h5 :: h6 :: h7 :: h8 :: h9 :: h10 :: h11 ::
      h12 :: h13 :: h14 :: h15 :: h16 :: h17 :: h18 :: h19 :: (payload ++ s')).length < 16 by
    simp only [List.length_cons]; omega)]
  rw [if_neg (show ¬ ((h0 + 256 * h1 : Nat) : Int) - ((20 : Nat) : Int) < 0 by omega)]
  rw [if_neg (show ¬ ((h0 + 256 * h1 : Nat) : Int) - ((20 : Nat) : Int) = 0 by omega)]
  rw [drop16_cons]
  have hpl : (((h0 + 256 * h1 : Nat) : Int) - ((20 : Nat) : Int)).toNat = payload.length := by
    omega
  rw [hpl, List.take_left, List.drop_left]
  rw [if_neg (by omega)]
  rw [show List.take 4 (h4 :: h5 :: h6 :: h7 :: h8 :: h9 :: h10 :: h11 ::
    h12 :: h13 :: h14 :: h15 :: h16 :: h17 :: h18 :: h19 :: (payload ++ s')) = [h4, h5, h6, h7]
    from rfl]
  rw [show List.take 4 (List.drop 4 (h4 :: h5 :: h6 :: h7 :: h8 :: h9 :: h10 :: h11 ::
    h12 :: h13 :: h14 :: h15 :: h16 :: h17 :: h18 :: h19 :: (payload ++ s'))) = [h8, h9, h10, h11]
    from rfl]
  rw [show List.take 4 (List.drop 8 (h4 :: h5 :: h6 :: h7 :: h8 :: h9 :: h10 :: h11 ::
    h12 :: h13 :: h14 :: h15 :: h16 :: h17 :: h18 :: h19 :: (payload ++ s'))) =
    [h12, h13, h14, h15] from rfl]
  rw [show List.take 4 (List.drop 12 (h4 :: h5 :: h6 :: h7 :: h8 :: h9 :: h10 :: h11 ::
    h12 :: h13 :: h14 :: h15 :: h16 :: h17 :: h18 :: h19 :: (payload ++ s'))) =
    [h16, h17, h18, h19] from rfl]
  have hoff : off + 20 + payload.length = off + (h0 + 256 * h1) := by omega
  rw [hoff]

theorem parseLoop_frame (f : Nat) (v : Bool) (el hsv : Nat) (pid tid : Int) (sec nsec : Nat)
    (payload s' : List Nat) (off : Nat)
    (h20 : 20 ≤ el) (h16 : el < 65536)
    (hpid1 : -2147483648 ≤ pid) (hpid2 : pid < 2147483648)
    (htid1 : -2147483648 ≤ tid) (htid2 : tid < 2147483648)
    (hsec : sec < 4294967296) (hnsec : nsec < 4294967296)
    (hplen : payload.length = el - 20) (hpos : 0 < payload.length) :
    parseLoop (f + 1) v (encodeHeader el hsv pid tid sec nsec ++ (payload ++ s')) off =
      (((parsePayload payload (off + 20) pid tid (timestampMicros sec nsec)).1 ::
         (parseLoop f v s' (off + el)).1),
       (if v then [⟨Severity.verbose, off⟩] else []) ++
         (parsePayload payload (off + 20) pid tid (timestampMicros sec nsec)).2 ++
         (parseLoop f v s' (off + el)).2) := by
  have hu16 : el % 256 + 256 * (el / 256 % 256) = el := by omega
  have hPid : leI32 [(pid % 4294967296).toNat % 256, (pid % 4294967296).toNat / 256 % 256,
      (pid % 4294967296).toNat / 65536 % 256, (pid % 4294967296).toNat / 16777216 % 256] = pid :=
    leI32_encodeI32 pid hpid1 hpid2
  have hTid : leI32 [(tid % 4294967296).toNat % 256, (tid % 4294967296).toNat / 256 % 256,
      (tid % 4294967296).toNat / 65536 % 256, (tid % 4294967296).toNat / 16777216 % 256] = tid :=
    leI32_encodeI32 tid htid1 htid2
  have hSec : leU32 [sec % 256, sec / 256 % 256, sec / 65536 % 256, sec / 16777216 % 256] = sec :=
    leU32_encodeU32 sec hsec
  have hNsec : leU32 [nsec % 256, nsec / 256 % 256, nsec / 65536 % 256,
      nsec / 16777216 % 256] = nsec :=
    leU32_encodeU32 nsec hnsec
  simp only [encodeHeader, encodeU16, encodeI32, encodeU32, List.cons_append, List.nil_append,
    List.append_assoc]
  rw [parseLoop_frame_bytes f v (el % 256) (el / 256 % 256) (hsv % 256) (hsv / 256 % 256)
    ((pid % 4294967296).toNat % 256) ((pid % 4294967296).toNat / 256 % 256)
    ((pid % 4294967296).toNat / 65536 % 256) ((pid % 4294967296).toNat / 16777216 % 256)
    ((tid % 4294967296).toNat % 256) ((tid % 4294967296).toNat / 256 % 256)
    ((tid % 4294967296).toNat / 65536 % 256) ((tid % 4294967296).toNat / 16777216 % 256)
    (sec % 256) (sec / 256 % 256) (sec / 65536 % 256) (sec / 16777216 % 256)
    (nsec % 256) (nsec / 256 % 256) (nsec / 65536 % 256) (nsec / 16777216 % 256)
    payload s' off (by omega) (by omega) hpos]
  rw [hPid, hTid, hSec, hNsec, hu16, List.append_assoc]

/-! ### One full loop iteration on a header-only entry (`entry_len = 20`) -/

theorem parseLoop_header_only_bytes (f : Nat) (v : Bool)
    (h2 h3 h4 h5 h6 h7 h8 h9 h10 h11 h12 h13 h14 h15 h16 h17 h18 h19 : Nat)
    (s' : List Nat) (off : Nat) :
    parseLoop (f + 1) v
      (20 :: 0 :: h2 :: h3 :: h4 :: h5 :: h6 :: h7 :: h8 :: h9 :: h10 :: h11 ::
        h12 :: h13 :: h14 :: h15 :: h16 :: h17 :: h18 :: h19 :: s') off =
      ((⟨timestampMicros (leU32 [h12, h13, h14, h15]) (leU32 [h16, h17, h18, h19]),
          leI32 [h4, h5, h6, h7], leI32 [h8, h9, h10, h11], "N/A", strCps "N/A", []⟩ ::
         (parseLoop f v s' (off + 20)).1),
       (if v then [⟨Severity.verbose, off⟩] else []) ++
         (if v then [⟨Severity.verbose, off⟩] else []) ++
         (parseLoop f v s' (off + 20)).2) := by
  rw [parseLoop.eq_def]
  dsimp only [MIN_HEADER_SIZE]
  rw [if_neg (by omega), if_neg (by omega)]
  rw [if_neg (show ¬ (h4 :: h5 :: h6 :: h7 :: h8 :: h9 :: h10 :: h11 ::
      h12 :: h13 :: h14 :: h15 :: h16 :: h17 :: h18 :: h19 :: s').length < 16 by
    simp only [List.length_cons]; omega)]
  rw [if_neg (show ¬ ((20 + 256 * 0 : Nat) : Int) - ((20 : Nat) : Int) < 0 by omega)]
  rw [if_pos (show ((20 + 256 * 0 : Nat) : Int) - ((20 : Nat) : Int) = 0 by omega)]
  rw [drop16_cons]
  rw [show List.take 4 (h4 :: h5 :: h6 :: h7 :: h8 :: h9 :: h10 :: h11 ::
    h12 :: h13 :: h14 :: h15 :: h16 :: h17 :: h18 :: h19 :: s') = [h4, h5, h6, h7] from rfl]
  rw [show List.take 4 (List.drop 4 (h4 :: h5 :: h6 :: h7 :: h8 :: h9 :: h10 :: h11 ::
    h12 :: h13 :: h14 :: h15 :: h16 :: h17 :: h18 :: h19 :: s')) = [h8, h9, h10, h11] from rfl]
  rw [show List.take 4 (List.drop 8 (h4 :: h5 :: h6 :: h7 :: h8 :: h9 :: h10 :: h11 ::
    h12 :: h13 :: h14 :: h15 :: h16 :: h17 :: h18 :: h19 :: s')) = [h12, h13, h14, h15] from rfl]
  rw [show List.take 4 (List.drop 12 (h4 :: h5 :: h6 :: h7 :: h8 :: h9 :: h10 :: h11 ::
    h12 :: h13 :: h14 :: h15 :: h16 :: h17 :: h18 :: h19 :: s')) = [h16, h17, h18, h19] from rfl]

theorem parseLoop_header_only (f : Nat) (v : Bool) (hsv : Nat) (pid tid : Int) (sec nsec : Nat)
    (s' : List Nat) (off : Nat)
    (hpid1 : -2147483648 ≤ pid) (hpid2 : pid < 2147483648)
    (htid1 : -2147483648 ≤ tid) (htid2 : tid < 2147483648)
    (hsec : sec < 4294967296) (hnsec : nsec < 4294967296) :
    parseLoop (f + 1) v (encodeHeader 20 hsv pid tid sec nsec ++ s') off =
      ((⟨timestampMicros sec nsec, pid, tid, "N/A", strCps "N/A", []⟩ ::
         (parseLoop f v s' (off + 20)).1),
       (if v then [⟨Severity.verbose, off⟩] else []) ++
         (if v then [⟨Severity.verbose, off⟩] else []) ++
         (parseLoop f v s' (off + 20)).2) := by
  have hPid : leI32 [(pid % 4294967296).toNat % 256, (pid % 4294967296).toNat / 256 % 256,
      (pid % 4294967296).toNat / 65536 % 256, (pid % 4294967296).toNat / 16777216 % 256] = pid :=
    leI32_encodeI32 pid hpid1 hpid2
  have hTid : leI32 [(tid % 4294967296).toNat % 256, (tid % 4294967296).toNat / 256 % 256,
      (tid % 4294967296).toNat / 65536 % 256, (tid % 4294967296).toNat / 16777216 % 256] = tid :=
    leI32_encodeI32 tid htid1 htid2
  have hSec : leU32 [sec % 256, sec / 256 % 256, sec / 65536 % 256, sec / 16777216 % 256] = sec :=
    leU32_encodeU32 sec hsec
  have hNsec : leU32 [nsec % 256, nsec / 256 % 256, nsec / 65536 % 256,
      nsec / 16777216 % 256] = nsec :=
    leU32_encodeU32 nsec hnsec
  simp only [encodeHeader, encodeU16, encodeI32, encodeU32, List.cons_append, List.nil_append,
    List.append_assoc]
  rw [show (20 % 256 : Nat) = 20 from rfl, show (20 / 256 % 256 : Nat) = 0 from rfl]
  rw [parseLoop_header_only_bytes f v (hsv % 256) (hsv / 256 % 256)
    ((pid % 4294967296).toNat % 256) ((pid % 4294967296).toNat / 256 % 256)
    ((pid % 4294967296).toNat / 65536 % 256) ((pid % 4294967296).toNat / 16777216 % 256)
    ((tid % 4294967296).toNat % 256) ((tid % 4294967296).toNat / 256 % 256)
    ((tid % 4294967296).toNat / 65536 % 256) ((tid % 4294967296).toNat / 16777216 % 256)
    (sec % 256) (sec / 256 % 256) (sec / 65536 % 256) (sec / 16777216 % 256)
    (nsec % 256) (nsec / 256 % 256) (nsec / 65536 % 256) (nsec / 16777216 % 256) s' off]
  rw [hPid, hTid, hSec, hNsec, List.append_assoc]

/-! ### Payload splitting on the two payload shapes the claims describe -/

theorem parsePayload_wellformed (prio : Nat) (tagB msgB : List Nat) (poff : Nat)
    (pid tid : Int) (ts : Nat)
    (htag : ∀ b ∈ tagB, b ≠ 0) (hmsg : ∀ b ∈ msgB, b ≠ 0) :
    parsePayload (prio :: (tagB ++ 0 :: (msgB ++ [0]))) poff pid tid ts =
      (⟨ts, pid, tid, logLevel prio, utf8DecodeReplace tagB, utf8DecodeReplace msgB⟩, []) := by
  have hidx : indexZeroFrom (prio :: (tagB ++ 0 :: (msgB ++ [0]))) 1 = some (1 + tagB.length) := by
    rw [indexZeroFrom]
    rw [show (prio :: (tagB ++ 0 :: (msgB ++ [0]))).drop 1 = tagB ++ 0 :: (msgB ++ [0]) from rfl]
    rw [findIdx_zero_append tagB (msgB ++ [0]) 0 htag]
    norm_num
  rw [parsePayload, hidx]
  dsimp only
  rw [show (prio :: (tagB ++ 0 :: (msgB ++ [0]))).drop 1 = tagB ++ 0 :: (msgB ++ [0]) from rfl]
  rw [show (1 + tagB.length - 1) = tagB.length from by omega]
  rw [List.take_left]
  have hdrop : (prio :: (tagB ++ 0 :: (msgB ++ [0]))).drop (1 + tagB.length + 1) =
      msgB ++ [0] := by
    rw [show (prio :: (tagB ++ 0 :: (msgB ++ [0]))).drop (1 + tagB.length + 1) =
      (tagB ++ 0 :: (msgB ++ [0])).drop (tagB.length + 1) from by
        rw [show (1 + tagB.length + 1) = (tagB.length + 1) + 1 from by omega]
        rfl]
    rw [show tagB ++ 0 :: (msgB ++ [0]) = (tagB ++ [0]) ++ (msgB ++ [0]) from by simp]
    exact List.drop_left' (by simp)
  rw [hdrop, stripTrailingZeros_append_zero msgB hmsg]
  rfl

theorem parsePayload_no_zero (payload : List Nat) (poff : Nat) (pid tid : Int) (ts : Nat)
    (h : ∀ b ∈ payload.drop 1, b ≠ 0) :
    parsePayload payload poff pid tid ts =
      (⟨ts, pid, tid, logLevel (payload.getD 0 0), strCps "ErrorTag",
        utf8DecodeReplace (payload.drop 1)⟩, [⟨Severity.warning, poff⟩]) := by
  rw [parsePayload, indexZeroFrom_of_all_pos payload h]
  dsimp only
  rw [stripTrailingZeros_of_all_pos (payload.drop 1) h]

/-! ### The loop without the defensive negative-payload-length guard -/

theorem parseLoop_nil (f : Nat) (v : Bool) (off : Nat) : parseLoop f v [] off = ([], []) := by
  cases f <;> rfl

/-- `parseLoop` with the defensive `payload_len < 0` branch of lines
137-162 deleted: `payload_len` is computed directly as the natural number
`entry_len - MIN_HEADER_SIZE` (well defined because `entry_len ≥
MIN_HEADER_SIZE` holds on this path).  Everything else is unchanged. -/
def parseLoopNG : Nat → Bool → List Nat → Nat → List LogRecord × List Diag
  | _, _, [], _ => ([], [])
  | 0, _, _, _ => ([], [])
  | f + 1, verbose, b0 :: b1 :: b2 :: b3 :: rest, off =>
    let entry_len := b0 + 256 * b1
    if entry_len = 0 then
      let p := parseLoopNG f verbose rest (off + 4)
      (p.1, (if verbose then [⟨Severity.verbose, off⟩] else []) ++ p.2)
    else if entry_len < MIN_HEADER_SIZE then
      ([], [⟨Severity.error, off⟩])
    else if rest.length < 16 then
      ([], [⟨Severity.error, off + 4⟩])
    else
      let pid := leI32 (rest.take 4)
      let tid := leI32 ((rest.drop 4).take 4)
      let sec := leU32 ((rest.drop 8).take 4)
      let nsec := leU32 ((rest.drop 12).take 4)
      let after := rest.drop 16
      let payload_len : Nat := entry_len - MIN_HEADER_SIZE
      let vdiag : List Diag := if verbose then [⟨Severity.verbose, off⟩] else []
      if payload_len = 0 then
        let r : LogRecord := ⟨timestampMicros sec nsec, pid, tid, "N/A", strCps "N/A", []⟩
        let p := parseLoopNG f verbose after (off + MIN_HEADER_SIZE)
        (r :: p.1, vdiag ++ (if verbose then [⟨Severity.verbose, off⟩] else []) ++ p.2)
      else
        let payload := after.take payload_len
        if payload.length < payload_len then
          ([], vdiag ++ [⟨Severity.error, off + MIN_HEADER_SIZE⟩])
        else
          let rd := parsePayload payload (off + MIN_HEADER_SIZE) pid tid
            (timestampMicros sec nsec)
          let p := parseLoopNG f verbose (after.drop payload_len)
            (off + MIN_HEADER_SIZE + payload_len)
          (rd.1 :: p.1, vdiag ++ rd.2 ++ p.2)
  | _ + 1, _, _ :: _, off =>
    ([], [⟨Severity.error, off⟩])

theorem parseLoop_eq_parseLoopNG (f : Nat) :
    ∀ (v : Bool) (s : List Nat) (off : Nat), parseLoop f v s off = parseLoopNG f v s off := by
  induction f with
  | zero => intro v s off; cases s <;> rfl
  | succ f ih =>
    intro v s off
    match s with
    | [] => rfl
    | [b0] => rfl
    | [b0, b1] => rfl
    | [b0, b1, b2] => rfl
    | b0 :: b1 :: b2 :: b3 :: rest =>
      rw [parseLoop.eq_def, parseLoopNG.eq_def]
      dsimp only [MIN_HEADER_SIZE]
      by_cases h0 : b0 + 256 * b1 = 0
      · rw [if_pos h0, if_pos h0, ih]
      · rw [if_neg h0, if_neg h0]
        by_cases h1 : b0 + 256 * b1 < 20
        · rw [if_pos h1, if_pos h1]
        · rw [if_neg h1, if_neg h1]
          by_cases h2 : rest.length < 16
          · rw [if_pos h2, if_pos h2]
          · rw [if_neg h2, if_neg h2]
            rw [if_neg (show ¬ ((b0 + 256 * b1 : Nat) : Int) - ((20 : Nat) : Int) < 0 by omega)]
            have htn : (((b0 + 256 * b1 : Nat) : Int) - ((20 : Nat) : Int)).toNat =
                b0 + 256 * b1 - 20 := by omega
            by_cases h4 : b0 + 256 * b1 - 20 = 0
            · rw [if_pos (show ((b0 + 256 * b1 : Nat) : Int) - ((20 : Nat) : Int) = 0 by omega),
                if_pos h4, ih]
            · rw [if_neg (show ¬ ((b0 + 256 * b1 : Nat) : Int) - ((20 : Nat) : Int) = 0 by omega),
                if_neg h4, htn, ih]

/-! ### The records do not depend on the verbosity flag -/

theorem parseLoop_records_verbose (f : Nat) :
    ∀ (s : List Nat) (off : Nat), (parseLoop f true s off).1 = (parseLoop f false s off).1 := by
  induction f with
  | zero => intro s off; cases s <;> rfl
  | succ f ih =>
    intro s off
    match s with
    | [] => rfl
    | [b0] => rfl
    | [b0, b1] => rfl
    | [b0, b1, b2] => rfl
    | b0 :: b1 :: b2 :: b3 :: rest =>
      rw [parseLoop.eq_def]
      rw [parseLoop.eq_def]
      dsimp only [MIN_HEADER_SIZE]
      by_cases h0 : b0 + 256 * b1 = 0
      · rw [if_pos h0, if_pos h0]
        dsimp only
        exact ih rest (off + 4)
      · rw [if_neg h0, if_neg h0]
        by_cases h1 : b0 + 256 * b1 < 20
        · rw [if_pos h1, if_pos h1]
        · rw [if_neg h1, if_neg h1]
          by_cases h2 : rest.length < 16
          · rw [if_pos h2, if_pos h2]
          · rw [if_neg h2, if_neg h2]
            rw [if_neg (show ¬ ((b0 + 256 * b1 : Nat) : Int) - ((20 : Nat) : Int) < 0 by omega),
              if_neg (show ¬ ((b0 + 256 * b1 : Nat) : Int) - ((20 : Nat) : Int) < 0 by omega)]
            by_cases h4 : ((b0 + 256 * b1 : Nat) : Int) - ((20 : Nat) : Int) = 0
            · rw [if_pos h4, if_pos h4]
              dsimp only
              rw [ih]
            · rw [if_neg h4, if_neg h4]
              by_cases h5 : (List.take (((b0 + 256 * b1 : Nat) : Int) - ((20 : Nat) : Int)).toNat
                  (List.drop 16 rest)).length <
                  (((b0 + 256 * b1 : Nat) : Int) - ((20 : Nat) : Int)).toNat
              · rw [if_pos h5, if_pos h5]
              · rw [if_neg h5, if_neg h5]
                dsimp only
                rw [ih]

/-! ## Claim theorems -/

/-- C1: for every valid single frame with payload length `L > 0` — a
20-byte little-endian header (`u16 entry_len = 20 + L`, `u16
header_size_or_version`, `i32 pid`, `i32 tid`, `u32 sec`, `u32 nsec`)
followed by a payload of one priority byte in 2..7, a NUL-free tag, a NUL
terminator, a NUL-free message and a terminating NUL — `parse_pmsg_file`
on exactly those bytes returns exactly one record whose pid, tid,
priority symbol, tag and message equal the encoded values.  Tag and
message are quantified as sequences of nonzero Unicode scalar values (the
Python strings that were UTF-8-encoded into the frame). -/
theorem C1_single_frame_roundtrip (v : Bool) (hsv : Nat) (pid tid : Int)
    (sec nsec prio : Nat) (tag msg : List Nat)
    (hprio1 : 2 ≤ prio) (hprio2 : prio ≤ 7) (hhsv : hsv < 65536)
    (hpid1 : -2147483648 ≤ pid) (hpid2 : pid < 2147483648)
    (htid1 : -2147483648 ≤ tid) (htid2 : tid < 2147483648)
    (hsec : sec < 4294967296) (hnsec : nsec < 4294967296)
    (htag : ∀ c ∈ tag, c ≠ 0 ∧ c < 1114112 ∧ (c < 55296 ∨ 57344 ≤ c))
    (hmsg : ∀ c ∈ msg, c ≠ 0 ∧ c < 1114112 ∧ (c < 55296 ∨ 57344 ≤ c))
    (hlen : 23 + (utf8Encode tag).length + (utf8Encode msg).length < 65536) :
    (parse_pmsg_file (encodeFrame hsv pid tid sec nsec prio tag msg) v).1 =
      [⟨timestampMicros sec nsec, pid, tid, logLevel prio, tag, msg⟩] := by
  have hL : (prio :: (utf8Encode tag ++ 0 :: (utf8Encode msg ++ [0]))).length
      = 3 + (utf8Encode tag).length + (utf8Encode msg).length := by
    simp only [List.length_cons, List.length_append, List.length_nil]
    omega
  have hs : encodeFrame hsv pid tid sec nsec prio tag msg =
      encodeHeader (20 + (prio :: (utf8Encode tag ++ 0 :: (utf8Encode msg ++ [0]))).length)
        hsv pid tid sec nsec ++
        ((prio :: (utf8Encode tag ++ 0 :: (utf8Encode msg ++ [0]))) ++ []) := by
    rw [encodeFrame, List.append_nil]
  rw [parse_pmsg_file, hs]
  have hflen : (encodeHeader
      (20 + (prio :: (utf8Encode tag ++ 0 :: (utf8Encode msg ++ [0]))).length)
        hsv pid tid sec nsec ++
        ((prio :: (utf8Encode tag ++ 0 :: (utf8Encode msg ++ [0]))) ++ [])).length =
      (22 + (utf8Encode tag).length + (utf8Encode msg).length) + 1 := by
    simp only [encodeHeader, encodeU16, encodeU32, encodeI32, List.length_append, hL,
      List.length_cons, List.length_nil]
    omega
  rw [hflen]
  have hplen2 : (prio :: (utf8Encode tag ++ 0 :: (utf8Encode msg ++ [0]))).length =
      (20 + (prio :: (utf8Encode tag ++ 0 :: (utf8Encode msg ++ [0]))).length) - 20 := by
    omega
  have hpos : 0 < (prio :: (utf8Encode tag ++ 0 :: (utf8Encode msg ++ [0]))).length := by
    simp only [List.length_cons]
    omega
  rw [parseLoop_frame (22 + (utf8Encode tag).length + (utf8Encode msg).length) v
    (20 + (prio :: (utf8Encode tag ++ 0 :: (utf8Encode msg ++ [0]))).length) hsv pid tid sec nsec
    (prio :: (utf8Encode tag ++ 0 :: (utf8Encode msg ++ [0]))) [] 0
    (by omega) (by rw [hL]; omega) hpid1 hpid2 htid1 htid2 hsec hnsec hplen2 hpos]
  rw [parsePayload_wellformed prio (utf8Encode tag) (utf8Encode msg) (0 + 20) pid tid
    (timestampMicros sec nsec)
    (utf8Encode_pos tag (fun c hc => (htag c hc).1))
    (utf8Encode_pos msg (fun c hc => (hmsg c hc).1))]
  rw [parseLoop_nil]
  dsimp only
  rw [utf8_decode_encode tag (fun c hc => ⟨(htag c hc).2.1, (htag c hc).2.2⟩),
    utf8_decode_encode msg (fun c hc => ⟨(hmsg c hc).2.1, (hmsg c hc).2.2⟩)]

/-- Witness for C1 at a concrete frame: priority 3 (`"D"`), pid −5,
tid 7, tag "Ab", message "cd". -/
theorem C1_single_frame_roundtrip_witness :
    (2 ≤ 3 ∧ (3:Nat) ≤ 7 ∧ (0:Nat) < 65536 ∧
      (-2147483648 ≤ (-5 : Int) ∧ (-5 : Int) < 2147483648) ∧
      (-2147483648 ≤ (7 : Int) ∧ (7 : Int) < 2147483648) ∧
      (1:Nat) < 4294967296 ∧ (999:Nat) < 4294967296 ∧
      23 + (utf8Encode [65, 98]).length + (utf8Encode [99, 100]).length < 65536) ∧
    (parse_pmsg_file (encodeFrame 0 (-5) 7 1 999 3 [65, 98] [99, 100]) false).1 =
      [⟨timestampMicros 1 999, -5, 7, logLevel 3, [65, 98], [99, 100]⟩] :=
  ⟨by decide,
   C1_single_frame_roundtrip false 0 (-5) 7 1 999 3 [65, 98] [99, 100]
     (by decide) (by decide) (by decide) (by decide) (by decide) (by decide) (by decide)
     (by decide) (by decide) (by decide) (by decide) (by decide)⟩

theorem parsePayload_timestamp (payload : List Nat) (poff : Nat) (pid tid : Int) (ts : Nat) :
    ((parsePayload payload poff pid tid ts).1).timestamp = ts := by
  rcases h : indexZeroFrom payload 1 with _ | i <;> rw [parsePayload, h]

/-- C2 counterexample: on the exact byte stream of the claim — header
`entry_len=31, header_size_or_version=20, pid=100, tid=200,
sec=1672569055, nsec=123000000` followed by the 21 payload bytes `0x04
"TestTag" NUL "Hello World" NUL` — the decoder reads only `entry_len - 20
= 11` payload bytes, so the single record's message is `"He"`, not
`"Hello World"` as the claim states. -/
theorem C2_counterexample :
    (parse_pmsg_file (encodeHeader 31 20 100 200 1672569055 123000000 ++
        (4 :: (strCps "TestTag" ++ 0 :: (strCps "Hello World" ++ [0])))) false).1 =
      [⟨1672569055123000, 100, 200, "I", strCps "TestTag", strCps "He"⟩] ∧
    strCps "He" ≠ strCps "Hello World" := by
  constructor
  · decide
  · decide

/-- C2 amended: on the claim's byte stream (whose `entry_len=31` covers
only 11 of the 21 payload bytes) the decoder yields exactly one record
with pid=100, tid=200, level "I", tag "TestTag", timestamp
1672569055.123000 s after the epoch, and message "He"; the 10 leftover
bytes are misparsed as a further frame whose header cannot be completed,
producing a stream-stop error diagnostic at offset 35. -/
theorem C2_example_amended :
    parse_pmsg_file (encodeHeader 31 20 100 200 1672569055 123000000 ++
        (4 :: (strCps "TestTag" ++ 0 :: (strCps "Hello World" ++ [0])))) false =
      ([⟨1672569055123000, 100, 200, "I", strCps "TestTag", strCps "He"⟩],
       [⟨Severity.error, 35⟩]) := by
  decide

/-- C3 counterexample: a header-only frame with `sec = 0, nsec = 1500`
yields a record whose timestamp is 2 microseconds after the epoch —
`timedelta(microseconds=1500/1000)` rounds 1.5 half-to-even to 2 — while
the claim's truncation `floor(nsec/1000)` demands 1.  So the nanoseconds
field is not truncated for every u32 `nsec`. -/
theorem C3_counterexample :
    ((parse_pmsg_file (encodeHeader 20 0 0 0 0 1500) false).1.map LogRecord.timestamp = [2]) ∧
      (0 * 1000000 + 1500 / 1000 : Nat) = 1 := by
  constructor
  · decide
  · decide

/-- C3 amended: for every frame that yields a record (shown for both a
frame with a non-empty payload and a header-only frame), the record's
timestamp equals `sec` seconds since the epoch plus `nsec/1000`
microseconds rounded to the nearest microsecond with ties to even
(Python's `timedelta` float rounding) — truncation happens only when
`nsec % 1000 < 500`. -/
theorem C3_amended_rounding (f : Nat) (v : Bool) (el hsv : Nat) (pid tid : Int)
    (sec nsec : Nat) (payload s' : List Nat) (off : Nat)
    (h20 : 20 ≤ el) (h16 : el < 65536)
    (hpid1 : -2147483648 ≤ pid) (hpid2 : pid < 2147483648)
    (htid1 : -2147483648 ≤ tid) (htid2 : tid < 2147483648)
    (hsec : sec < 4294967296) (hnsec : nsec < 4294967296)
    (hplen : payload.length = el - 20) (hpos : 0 < payload.length) :
    ((parseLoop (f + 1) v (encodeHeader el hsv pid tid sec nsec ++ (payload ++ s')) off).1.head?).map
        LogRecord.timestamp =
      some (sec * 1000000 +
        (if nsec % 1000 < 500 then nsec / 1000
         else if 500 < nsec % 1000 then nsec / 1000 + 1
         else if (nsec / 1000) % 2 = 0 then nsec / 1000 else nsec / 1000 + 1)) ∧
    ((parseLoop (f + 1) v (encodeHeader 20 hsv pid tid sec nsec ++ s') off).1.head?).map
        LogRecord.timestamp =
      some (sec * 1000000 +
        (if nsec % 1000 < 500 then nsec / 1000
         else if 500 < nsec % 1000 then nsec / 1000 + 1
         else if (nsec / 1000) % 2 = 0 then nsec / 1000 else nsec / 1000 + 1)) := by
  constructor
  · rw [parseLoop_frame f v el hsv pid tid sec nsec payload s' off h20 h16 hpid1 hpid2
      htid1 htid2 hsec hnsec hplen hpos]
    show some ((parsePayload payload (off + 20) pid tid (timestampMicros sec nsec)).1.timestamp)
      = _
    rw [parsePayload_timestamp]
    rfl
  · rw [parseLoop_header_only f v hsv pid tid sec nsec s' off hpid1 hpid2 htid1 htid2 hsec hnsec]
    rfl

/-- Witness for C3's amended claim at `el = 21`, payload `[9]`,
`nsec = 2500` (2.5 µs rounds to 2 since 2 is even). -/
theorem C3_amended_rounding_witness :
    ((20 ≤ 21 ∧ (21:Nat) < 65536 ∧
      (-2147483648 ≤ (1 : Int) ∧ (1 : Int) < 2147483648) ∧
      (-2147483648 ≤ (2 : Int) ∧ (2 : Int) < 2147483648) ∧
      (7:Nat) < 4294967296 ∧ (2500:Nat) < 4294967296 ∧
      ([9] : List Nat).length = 21 - 20 ∧ 0 < ([9] : List Nat).length)) ∧
    ((parseLoop (0 + 1) false (encodeHeader 21 0 1 2 7 2500 ++ ([9] ++ [])) 0).1.head?).map
        LogRecord.timestamp =
      some (7 * 1000000 +
        (if 2500 % 1000 < 500 then 2500 / 1000
         else if 500 < 2500 % 1000 then 2500 / 1000 + 1
         else if (2500 / 1000) % 2 = 0 then 2500 / 1000 else 2500 / 1000 + 1)) :=
  ⟨by decide,
   (C3_amended_rounding 0 false 21 0 1 2 7 2500 [9] [] 0 (by decide) (by decide) (by decide)
     (by decide) (by decide) (by decide) (by decide) (by decide) (by decide) (by decide)).1⟩

/-- C4: for every frame whose payload (length ≥ 2) has no zero byte at
any index ≥ 1, the emitted record has the sentinel tag `"ErrorTag"` and
message equal to the lossy-UTF-8 decoding of all payload bytes after the
priority byte (the would-be tag bytes included); a warning diagnostic is
emitted at the payload's offset, and the record is still appended (the
stream continues at the next frame). -/
theorem C4_unterminated_tag (f : Nat) (v : Bool) (el hsv : Nat) (pid tid : Int)
    (sec nsec : Nat) (payload s' : List Nat) (off : Nat)
    (h16 : el < 65536)
    (hpid1 : -2147483648 ≤ pid) (hpid2 : pid < 2147483648)
    (htid1 : -2147483648 ≤ tid) (htid2 : tid < 2147483648)
    (hsec : sec < 4294967296) (hnsec : nsec < 4294967296)
    (hplen : payload.length = el - 20) (h2 : 2 ≤ payload.length)
    (hzero : ∀ b ∈ payload.drop 1, b ≠ 0) :
    parseLoop (f + 1) v (encodeHeader el hsv pid tid sec nsec ++ (payload ++ s')) off =
      (⟨timestampMicros sec nsec, pid, tid, logLevel (payload.getD 0 0), strCps "ErrorTag",
          utf8DecodeReplace (payload.drop 1)⟩ :: (parseLoop f v s' (off + el)).1,
       (if v then [⟨Severity.verbose, off⟩] else []) ++
         ([⟨Severity.warning, off + 20⟩] ++ (parseLoop f v s' (off + el)).2)) := by
  rw [parseLoop_frame f v el hsv pid tid sec nsec payload s' off (by omega) h16 hpid1 hpid2
    htid1 htid2 hsec hnsec hplen (by omega)]
  rw [parsePayload_no_zero payload (off + 20) pid tid (timestampMicros sec nsec) hzero]
  dsimp only
  rw [List.append_assoc]

/-- Witness for C4 at `el = 22`, payload `[4, 65]` (priority 4, one
unterminated tag byte `A`). -/
theorem C4_unterminated_tag_witness :
    ((22:Nat) < 65536 ∧
      (-2147483648 ≤ (1 : Int) ∧ (1 : Int) < 2147483648) ∧
      (-2147483648 ≤ (2 : Int) ∧ (2 : Int) < 2147483648) ∧
      (3:Nat) < 4294967296 ∧ (4:Nat) < 4294967296 ∧
      ([4, 65] : List Nat).length = 22 - 20 ∧ 2 ≤ ([4, 65] : List Nat).length ∧
      (∀ b ∈ ([4, 65] : List Nat).drop 1, b ≠ 0)) ∧
    parseLoop (0 + 1) false (encodeHeader 22 0 1 2 3 4 ++ ([4, 65] ++ [])) 0 =
      (⟨timestampMicros 3 4, 1, 2, logLevel (([4, 65] : List Nat).getD 0 0), strCps "ErrorTag",
          utf8DecodeReplace (([4, 65] : List Nat).drop 1)⟩ :: (parseLoop 0 false [] (0 + 22)).1,
       (if false then [⟨Severity.verbose, 0⟩] else []) ++
         ([⟨Severity.warning, 0 + 20⟩] ++ (parseLoop 0 false [] (0 + 22)).2)) :=
  ⟨by decide,
   C4_unterminated_tag 0 false 22 0 1 2 3 4 [4, 65] [] 0 (by decide) (by decide) (by decide)
     (by decide) (by decide) (by decide) (by decide) (by decide) (by decide) (by decide)⟩

/-- C5 counterexample: a frame with `entry_len = 20` yields one record
whose tag is `"N/A"`, not the sentinel `"ErrorTag"` the claim names (the
`"ErrorTag"` sentinel is used only for a missing tag terminator). -/
theorem C5_counterexample :
    ((parse_pmsg_file (encodeHeader 20 20 300 400 5 0) false).1.map LogRecord.tag =
      [strCps "N/A"]) ∧
    strCps "N/A" ≠ strCps "ErrorTag" := by
  constructor
  · decide
  · decide

/-- C5 amended: for every frame with `entry_len = 20` (payload length 0)
whose 20 header bytes are fully read, exactly one record is appended,
carrying the "unknown" level marker `"N/A"`, the "unknown" tag marker
`"N/A"` (not the `"ErrorTag"` sentinel), and an empty message. -/
theorem C5_header_only_record (f : Nat) (v : Bool) (hsv : Nat) (pid tid : Int)
    (sec nsec : Nat) (s' : List Nat) (off : Nat)
    (hpid1 : -2147483648 ≤ pid) (hpid2 : pid < 2147483648)
    (htid1 : -2147483648 ≤ tid) (htid2 : tid < 2147483648)
    (hsec : sec < 4294967296) (hnsec : nsec < 4294967296) :
    parseLoop (f + 1) v (encodeHeader 20 hsv pid tid sec nsec ++ s') off =
      ((⟨timestampMicros sec nsec, pid, tid, "N/A", strCps "N/A", []⟩ ::
         (parseLoop f v s' (off + 20)).1),
       (if v then [⟨Severity.verbose, off⟩] else []) ++
         (if v then [⟨Severity.verbose, off⟩] else []) ++
         (parseLoop f v s' (off + 20)).2) :=
  parseLoop_header_only f v hsv pid tid sec nsec s' off hpid1 hpid2 htid1 htid2 hsec hnsec

/-- Witness for C5's amended claim at a concrete header-only frame. -/
theorem C5_header_only_record_witness :
    ((-2147483648 ≤ (300 : Int) ∧ (300 : Int) < 2147483648) ∧
      (-2147483648 ≤ (400 : Int) ∧ (400 : Int) < 2147483648) ∧
      (5:Nat) < 4294967296 ∧ (0:Nat) < 4294967296) ∧
    parseLoop (0 + 1) false (encodeHeader 20 20 300 400 5 0 ++ []) 0 =
      ((⟨timestampMicros 5 0, 300, 400, "N/A", strCps "N/A", []⟩ ::
         (parseLoop 0 false [] (0 + 20)).1),
       (if false then [⟨Severity.verbose, 0⟩] else []) ++
         (if false then [⟨Severity.verbose, 0⟩] else []) ++
         (parseLoop 0 false [] (0 + 20)).2) :=
  ⟨by decide,
   C5_header_only_record 0 false 20 300 400 5 0 [] 0 (by decide) (by decide) (by decide)
     (by decide) (by decide) (by decide)⟩

/-- C6: a frame whose `entry_len` field decodes to a value between 1 and
19 halts decoding where it stands: the loop returns no further records
(so the whole parse returns exactly the records of the frames strictly
before this one) after emitting an error diagnostic at the frame's
offset, and the result does not depend on the header-size bytes `c, d`
nor on any byte `s'` after the frame's 4-byte prefix. -/
theorem C6_short_entry_len_halts (f : Nat) (v : Bool) (b0 b1 c d : Nat) (s' : List Nat)
    (off : Nat) (h1 : 1 ≤ b0 + 256 * b1) (h2 : b0 + 256 * b1 < 20) :
    parseLoop (f + 1) v (b0 :: b1 :: c :: d :: s') off = ([], [⟨Severity.error, off⟩]) := by
  rw [parseLoop.eq_def]
  dsimp only [MIN_HEADER_SIZE]
  rw [if_neg (by omega), if_pos h2]

/-- Witness for C6 with `entry_len = 10`. -/
theorem C6_short_entry_len_halts_witness :
    (1 ≤ 10 + 256 * 0 ∧ 10 + 256 * 0 < 20) ∧
    parseLoop (3 + 1) true (10 :: 0 :: 20 :: 0 :: [1, 2, 3]) 5 = ([], [⟨Severity.error, 5⟩]) :=
  ⟨by decide, C6_short_entry_len_halts 3 true 10 0 20 0 [1, 2, 3] 5 (by decide) (by decide)⟩

/-- C7: a frame whose `entry_len` field is 0 contributes zero records
and does not halt decoding: the cursor advances by exactly the 4 bytes
already consumed and the loop continues with the next frame at offset
`off + 4`, so frames following it are still parsed (the records are
exactly those of the remaining stream; in verbose mode a skip notice is
emitted first). -/
theorem C7_zero_entry_len_skips (f : Nat) (v : Bool) (c d : Nat) (s' : List Nat) (off : Nat) :
    parseLoop (f + 1) v (0 :: 0 :: c :: d :: s') off =
      ((parseLoop f v s' (off + 4)).1,
       (if v then [⟨Severity.verbose, off⟩] else []) ++ (parseLoop f v s' (off + 4)).2) := by
  rw [parseLoop.eq_def]
  dsimp only
  rw [if_pos (by norm_num)]

/-- C8: the defensive `payload_len < 0` guard of lines 137-162 is
unreachable — `payload_len = entry_len - 20` is computed only after the
`entry_len < 20` check has passed, so it is never negative — and hence
deleting the guard (both its verbose skip arm and its non-verbose stop
arm, see `parseLoopNG`, which computes `payload_len` as a natural
number) never changes the result of `parse_pmsg_file`. -/
theorem C8_negative_guard_unreachable (data : List Nat) (v : Bool) :
    parse_pmsg_file data v = parseLoopNG data.length v data 0 :=
  parseLoop_eq_parseLoopNG data.length v data 0

/-- C9: `parse_pmsg_file` with `verbose=True` and `verbose=False`
returns the same records on every input stream; the flag only changes
the emitted diagnostics (the one branch where it could change the
records — the negative payload-length branch — is unreachable). -/
theorem C9_verbose_does_not_change_records (data : List Nat) :
    (parse_pmsg_file data true).1 = (parse_pmsg_file data false).1 :=
  parseLoop_records_verbose data.length data 0

/-- C10: for every frame whose header passes validation (`20 ≤ entry_len
< 2^16`, all 16 remaining header bytes present) and whose payload of
length ≥ 1 is fully read, exactly one record is appended — the record
built by the payload split — whatever the payload bytes are: the
`IndexError` branch (payload too short for the priority byte) and the
generic payload-decode-fault branch never fire. -/
theorem C10_full_frame_always_one_record (f : Nat) (v : Bool) (el hsv : Nat) (pid tid : Int)
    (sec nsec : Nat) (payload s' : List Nat) (off : Nat)
    (h20 : 20 ≤ el) (h16 : el < 65536)
    (hpid1 : -2147483648 ≤ pid) (hpid2 : pid < 2147483648)
    (htid1 : -2147483648 ≤ tid) (htid2 : tid < 2147483648)
    (hsec : sec < 4294967296) (hnsec : nsec < 4294967296)
    (hplen : payload.length = el - 20) (hpos : 0 < payload.length) :
    (parseLoop (f + 1) v (encodeHeader el hsv pid tid sec nsec ++ (payload ++ s')) off).1 =
      (parsePayload payload (off + 20) pid tid (timestampMicros sec nsec)).1 ::
        (parseLoop f v s' (off + el)).1 := by
  rw [parseLoop_frame f v el hsv pid tid sec nsec payload s' off h20 h16 hpid1 hpid2
    htid1 htid2 hsec hnsec hplen hpos]

/-- Witness for C10 at `el = 21` with the single payload byte `[0]`
(priority 0, no tag, no message — still exactly one record). -/
theorem C10_full_frame_always_one_record_witness :
    (20 ≤ 21 ∧ (21:Nat) < 65536 ∧
      (-2147483648 ≤ (-1 : Int) ∧ (-1 : Int) < 2147483648) ∧
      (-2147483648 ≤ (0 : Int) ∧ (0 : Int) < 2147483648) ∧
      (1:Nat) < 4294967296 ∧ (500:Nat) < 4294967296 ∧
      ([0] : List Nat).length = 21 - 20 ∧ 0 < ([0] : List Nat).length) ∧
    (parseLoop (0 + 1) true (encodeHeader 21 7 (-1) 0 1 500 ++ ([0] ++ [])) 0).1 =
      (parsePayload [0] (0 + 20) (-1) 0 (timestampMicros 1 500)).1 ::
        (parseLoop 0 true [] (0 + 21)).1 :=
  ⟨by decide,
   C10_full_frame_always_one_record 0 true 21 7 (-1) 0 1 500 [0] [] 0 (by decide) (by decide)
     (by decide) (by decide) (by decide) (by decide) (by decide) (by decide) (by decide)
     (by decide)⟩

end Pmsg
